import Mathlib

/-!
Verification of the code-generator version-resolution and integrity-verified
upgrade flow of `src/DigitalTwin/CodeGenerateCore.ts`.

The embedding mirrors the TypeScript source:
* `compareVersion` splits each version string on `'.'` and converts each
  component with JavaScript' s `Number(...)`; a component that does not parse
  is `NaN`, and every `<` / `>` comparison against `NaN` is `false`.
* `UpgradeCodeGenerator` sorts the remote config items in descending version
  order, picks a target item, decides whether an upgrade is needed, and then
  downloads, hash-checks, extracts, and records the new version, rethrowing
  on any failure.
State (the persisted version key, the install directory, the scratch files)
is passed explicitly; the outcomes of I/O (the remote config document, each
download, the hash of written bytes, extraction success) are inputs in `Env`.
-/

/-- Value of JavaScript `Number(component)` for one dot-split component:
either a real number (integral in every case of interest) or `NaN`. -/
inductive JSNum where
  | nan : JSNum
  | val : Int → JSNum
deriving DecidableEq

/-- JavaScript `>` on numbers: every comparison involving `NaN` is false. -/
def jsGt : JSNum → JSNum → Bool
  | JSNum.val a, JSNum.val b => a > b
  | _, _ => false

/-- JavaScript `<` on numbers: every comparison involving `NaN` is false. -/
def jsLt : JSNum → JSNum → Bool
  | JSNum.val a, JSNum.val b => a < b
  | _, _ => false

/-- `s.split('.')` at the character level, with JavaScript semantics:
`"".split('.')` is `[""]`, adjacent dots yield empty components. -/
def splitOnDot : List Char → List (List Char)
  | [] => [[]]
  | c :: rest =>
    if c = '.' then [] :: splitOnDot rest
    else
      match splitOnDot rest with
      | [] => [[c]]
      | g :: gs => (c :: g) :: gs

/-- Value of an unsigned decimal digit run. -/
def parseDigits (cs : List Char) : Option Nat :=
  if !cs.isEmpty && cs.all Char.isDigit then
    some (cs.foldl (fun a c => 10 * a + (c.toNat - 48)) 0)
  else none

/-- `Number(component)` for a dot-split component, on the fragment that can
occur there: the empty string converts to `0`, an optionally signed digit
string to its integer value, and anything else to `NaN`.  (Exotic forms such
as hex or exponent notation never appear in a dot-split version component of
this flow.) -/
def toNumber : List Char → JSNum
  | [] => JSNum.val 0
  | '-' :: rest =>
    match parseDigits rest with
    | some n => JSNum.val (-(n : Int))
    | none => JSNum.nan
  | '+' :: rest =>
    match parseDigits rest with
    | some n => JSNum.val (n : Int)
    | none => JSNum.nan
  | cs =>
    match parseDigits cs with
    | some n => JSNum.val (n : Int)
    | none => JSNum.nan

/-- `verion.split('.')` followed by `Number` on each component. -/
def splitVersion (s : String) : List JSNum :=
  (splitOnDot s.data).map toNumber

/-- `Number(ver[i])`: indexing a JavaScript array out of range yields
`undefined`, and `Number(undefined)` is `NaN`. -/
def nthNum (l : List JSNum) (i : Nat) : JSNum :=
  (l[i]?).getD JSNum.nan

/-- One iteration of the loop body of `compareVersion`: `some 1` when
`v1 > v2`, `some (-1)` when `v1 < v2`, `none` when the loop continues. -/
def cmpAt (v1 v2 : List JSNum) (i : Nat) : Option Int :=
  if jsGt (nthNum v1 i) (nthNum v2 i) then some 1
  else if jsLt (nthNum v1 i) (nthNum v2 i) then some (-1)
  else none

/-- The `while (i < 3)` loop of `compareVersion`, unrolled: the first
position among 0, 1, 2 where one side is strictly larger decides; otherwise
the result is `0`. -/
def compareNums (v1 v2 : List JSNum) : Int :=
  match cmpAt v1 v2 0 with
  | some r => r
  | none =>
    match cmpAt v1 v2 1 with
    | some r => r
    | none =>
      match cmpAt v1 v2 2 with
      | some r => r
      | none => 0

/-- `compareVersion(verion1, verion2)` from `CodeGenerateCore.ts`. -/
def compareVersion (verion1 verion2 : String) : Int :=
  compareNums (splitVersion verion1) (splitVersion verion2)

/-- The spec' s `VersionTriple`: three non-negative integer components. -/
abbrev VersionTriple : Type := Nat × Nat × Nat

/-- The component list a well-formed three-part version yields after
splitting and numeric conversion. -/
def tripleNums (t : VersionTriple) : List JSNum :=
  [JSNum.val t.1, JSNum.val t.2.1, JSNum.val t.2.2]

/-- `compareVersion` restricted to well-formed version triples (the spec' s
`compare` on `VersionTriple`). -/
def compareTriple (a b : VersionTriple) : Int :=
  compareNums (tripleNums a) (tripleNums b)

/-- Spec-side comparator, written to the specification' s words: compare
major, then minor, then patch, in that order; return on the first differing
component; return `0` if all three components are equal. -/
def compareTripleSpec (a b : VersionTriple) : Int :=
  if a.1 ≠ b.1 then (if a.1 < b.1 then -1 else 1)
  else if a.2.1 ≠ b.2.1 then (if a.2.1 < b.2.1 then -1 else 1)
  else if a.2.2 ≠ b.2.2 then (if a.2.2 < b.2.2 then -1 else 1)
  else 0

/-- Whether a converted component is an actual number (not `NaN`). -/
def isVal : JSNum → Bool
  | JSNum.nan => false
  | JSNum.val _ => true

/-- The numeric value of a converted component, defaulting `NaN` to `0`. -/
def theVal : JSNum → Int
  | JSNum.nan => 0
  | JSNum.val n => n

/-- The three components the comparator inspects are all actual numbers. -/
def numeric3 (v : List JSNum) : Bool :=
  isVal (nthNum v 0) && isVal (nthNum v 1) && isVal (nthNum v 2)

/-- The three inspected components, as integers. -/
def vals3 (v : List JSNum) : Int × Int × Int :=
  (theVal (nthNum v 0), theVal (nthNum v 1), theVal (nthNum v 2))

/-- The comparison loop on integer component triples (the shape
`compareVersion` takes once every inspected component is numeric). -/
def cmp3 (x y : Int × Int × Int) : Int :=
  if x.1 > y.1 then 1 else if x.1 < y.1 then -1
  else if x.2.1 > y.2.1 then 1 else if x.2.1 < y.2.1 then -1
  else if x.2.2 > y.2.2 then 1 else if x.2.2 < y.2.2 then -1
  else 0

/-- `CodeGeneratorDownloadLocation` from `CodeGenerateCore.ts`. -/
structure CodeGeneratorDownloadLocation where
  win32Md5 : String
  win32PackageUrl : String
  macOSMd5 : String
  macOSPackageUrl : String
  ubuntuMd5 : String
  ubuntuPackageUrl : String
deriving DecidableEq

/-- `CodeGeneratorConfigItem` from `CodeGenerateCore.ts`. -/
structure CodeGeneratorConfigItem where
  codeGeneratorVersion : String
  iotWorkbenchMinimalVersion : String
  codeGeneratorLocation : CodeGeneratorDownloadLocation
deriving DecidableEq

/-- `CodeGeneratorConfig` from `CodeGenerateCore.ts`. -/
structure CodeGeneratorConfig where
  codeGeneratorConfigItems : List CodeGeneratorConfigItem
deriving DecidableEq

/-- The sort comparator `(c1, c2) => compareVersion(c2.v, c1.v)` keeps `c1`
before `c2` exactly when it returns a non-positive value: `c1`' s version is
at least `c2`' s. -/
def descBefore (c1 c2 : CodeGeneratorConfigItem) : Bool :=
  compareVersion c2.codeGeneratorVersion c1.codeGeneratorVersion ≤ 0

/-- Insert an item into a list sorted by `descBefore`, keeping earlier
elements first on ties (JavaScript' s `Array.prototype.sort` is stable). -/
def descInsert (a : CodeGeneratorConfigItem) :
    List CodeGeneratorConfigItem → List CodeGeneratorConfigItem
  | [] => [a]
  | b :: l => if descBefore a b then a :: b :: l else b :: descInsert a l

/-- `codeGeneratorConfigItems.sort((c1, c2) => compareVersion(c2.v, c1.v))`:
sort in descending version order. -/
def sortDesc : List CodeGeneratorConfigItem → List CodeGeneratorConfigItem
  | [] => []
  | a :: l => descInsert a (sortDesc l)

/-- The RC-build test `/^[0-9]+\.[0-9]+\.[0-9]+$/.test(extensionVersion)`:
exactly three dot-separated non-empty digit runs. -/
def isReleaseVersion (s : String) : Bool :=
  match splitOnDot s.data with
  | [a, b, c] =>
    !a.isEmpty && a.all Char.isDigit && !b.isEmpty && b.all Char.isDigit &&
      !c.isEmpty && c.all Char.isDigit
  | _ => false

/-- Target selection from the sorted config items: a prerelease (RC) host
takes the first (highest-versioned) item unconditionally; a release host
takes the first item whose `iotWorkbenchMinimalVersion` it satisfies
(`compareVersion(extensionVersion, item.iotWorkbenchMinimalVersion) >= 0`).
An empty result (`items[0]` of an empty array is `undefined`) is `none`. -/
def selectTarget (items : List CodeGeneratorConfigItem)
    (extensionVersion : String) (preRelease : Bool) :
    Option CodeGeneratorConfigItem :=
  let sorted := sortDesc items
  if preRelease then sorted.head?
  else sorted.find? fun item =>
    decide (0 ≤ compareVersion extensionVersion item.iotWorkbenchMinimalVersion)

/-- The three platform branches of the download-option selection. -/
inductive OsKind where
  | win32 : OsKind
  | darwin : OsKind
  | other : OsKind
deriving DecidableEq

/-- The package URL chosen for the platform. -/
def downloadUrl (k : OsKind) (loc : CodeGeneratorDownloadLocation) : String :=
  match k with
  | OsKind.win32 => loc.win32PackageUrl
  | OsKind.darwin => loc.macOSPackageUrl
  | OsKind.other => loc.ubuntuPackageUrl

/-- The expected MD5 value chosen for the platform. -/
def expectedMd5 (k : OsKind) (loc : CodeGeneratorDownloadLocation) : String :=
  match k with
  | OsKind.win32 => loc.win32Md5
  | OsKind.darwin => loc.macOSMd5
  | OsKind.other => loc.ubuntuMd5

/-- The mutable world the flow touches: the persisted version key
(`ConfigKey.codeGeneratorVersion` in the configuration store), whether the
code-generator install directory exists, and the scratch files in the
temporary folder (name, content). -/
structure WorldState where
  installedVersion : Option String
  installDirExists : Bool
  tempFiles : List (String × String)
deriving DecidableEq

/-- `fs.writeFileSync`: overwrite the file if present, create it otherwise. -/
def writeFile : List (String × String) → String → String → List (String × String)
  | [], n, c => [(n, c)]
  | (m, d) :: rest, n, c =>
    if m = n then (n, c) :: rest else (m, d) :: writeFile rest n c

/-- Outcomes of the I/O the flow performs, fixed up front: the remote config
request (which may reject, or resolve to a missing document), the extension
version and platform of the host, the download result per URL, the MD5 digest
of written bytes, and whether `extract-zip` succeeds. -/
structure UpgradeEnv where
  configResult : Except String (Option CodeGeneratorConfig)
  extensionVersion : String
  osKind : OsKind
  download : String → Except String String
  md5Hash : String → String
  extractOk : Bool

/-- How a run of `UpgradeCodeGenerator` can throw. -/
inductive UpgradeFailure where
  | network : String → UpgradeFailure
  | integrity : UpgradeFailure
  | extraction : UpgradeFailure
deriving DecidableEq

/-- The externally visible actions a run completes, in order. -/
inductive UpStep where
  | download : UpStep
  | verify : UpStep
  | extract : UpStep
  | writeVersion : UpStep
deriving DecidableEq

/-- The `needUpgrade` computation: upgrade when the install directory is
missing, when no version is recorded (`!currentVersion` is also true for the
empty string), or when the target version is strictly newer. -/
def needUpgradeCheck (s : WorldState) (item : CodeGeneratorConfigItem) : Bool :=
  if !s.installDirExists then true
  else
    match s.installedVersion with
    | none => true
    | some cur =>
      (cur = "") || decide (0 < compareVersion item.codeGeneratorVersion cur)

/-- `UpgradeCodeGenerator`, with its I/O outcomes supplied by `env` and the
world threaded explicitly.  Returns the promise outcome (`Bool` or a thrown
failure), the final world, and the list of completed steps. -/
def upgradeCodeGenerator (env : UpgradeEnv) (s : WorldState) :
    Except UpgradeFailure Bool × WorldState × List UpStep :=
  match env.configResult with
  | Except.error e => (Except.error (UpgradeFailure.network e), s, [])
  | Except.ok cfgOpt =>
    let target : Option CodeGeneratorConfigItem :=
      match cfgOpt with
      | none => none
      | some cfg =>
        selectTarget cfg.codeGeneratorConfigItems env.extensionVersion
          (!isReleaseVersion env.extensionVersion)
    match target with
    | none => (Except.ok false, s, [])
    | some item =>
      if needUpgradeCheck s item then
        let url := downloadUrl env.osKind item.codeGeneratorLocation
        let md5value := expectedMd5 env.osKind item.codeGeneratorLocation
        match env.download url with
        | Except.error e => (Except.error (UpgradeFailure.network e), s, [])
        | Except.ok zipData =>
          let filePath := md5value ++ ".zip"
          let s1 : WorldState :=
            { s with tempFiles := writeFile s.tempFiles filePath zipData }
          if env.md5Hash zipData ≠ md5value then
            (Except.error UpgradeFailure.integrity, s1, [UpStep.download])
          else if env.extractOk then
            (Except.ok true,
             { s1 with
                installDirExists := true
                installedVersion := some item.codeGeneratorVersion },
             [UpStep.download, UpStep.verify, UpStep.extract,
              UpStep.writeVersion])
          else
            (Except.error UpgradeFailure.extraction, s1,
             [UpStep.download, UpStep.verify])
      else (Except.ok true, s, [])

/-- A config item whose version string has three numeric inspected
components. -/
def numericVer (c : CodeGeneratorConfigItem) : Bool :=
  numeric3 (splitVersion c.codeGeneratorVersion)

/-- The target item a run of `upgradeCodeGenerator` works with, as a function
of the environment alone (the selection reads no mutable state). -/
def configTarget (env : UpgradeEnv) : Option CodeGeneratorConfigItem :=
  match env.configResult with
  | Except.error _ => none
  | Except.ok none => none
  | Except.ok (some cfg) =>
    selectTarget cfg.codeGeneratorConfigItems env.extensionVersion
      (!isReleaseVersion env.extensionVersion)

/-! Concrete sample data for witnesses and counterexamples. -/

/-- A download location whose three platform hashes are `"h"`. -/
def locH : CodeGeneratorDownloadLocation :=
  { win32Md5 := "h", win32PackageUrl := "u", macOSMd5 := "h",
    macOSPackageUrl := "u", ubuntuMd5 := "h", ubuntuPackageUrl := "u" }

/-- A download location whose three platform hashes are `"deadbeef"`. -/
def locDead : CodeGeneratorDownloadLocation :=
  { win32Md5 := "deadbeef", win32PackageUrl := "u", macOSMd5 := "deadbeef",
    macOSPackageUrl := "u", ubuntuMd5 := "deadbeef", ubuntuPackageUrl := "u" }

/-- A config item whose version string is empty. -/
def itemEmptyVer : CodeGeneratorConfigItem :=
  { codeGeneratorVersion := "", iotWorkbenchMinimalVersion := "1.0.0",
    codeGeneratorLocation := locH }

/-- A config item at version `9.9.9`. -/
def itemNine : CodeGeneratorConfigItem :=
  { codeGeneratorVersion := "9.9.9", iotWorkbenchMinimalVersion := "1.0.0",
    codeGeneratorLocation := locH }

/-- A config item whose package hash will not match. -/
def itemBad : CodeGeneratorConfigItem :=
  { codeGeneratorVersion := "2.0.0", iotWorkbenchMinimalVersion := "1.0.0",
    codeGeneratorLocation := locDead }

/-- Candidate release `1.3.0`, minimal host version `1.0.0`. -/
def cand130 : CodeGeneratorConfigItem :=
  { codeGeneratorVersion := "1.3.0", iotWorkbenchMinimalVersion := "1.0.0",
    codeGeneratorLocation := locH }

/-- Candidate release `1.4.0`, minimal host version `9.9.9`. -/
def cand140 : CodeGeneratorConfigItem :=
  { codeGeneratorVersion := "1.4.0", iotWorkbenchMinimalVersion := "9.9.9",
    codeGeneratorLocation := locH }

/-- A fresh world: nothing recorded, no install directory, no scratch files. -/
def sInit : WorldState :=
  { installedVersion := none, installDirExists := false, tempFiles := [] }

/-- Environment whose only release has the empty version string; every
download succeeds with payload `"P"`, which hashes to the expected `"h"`. -/
def envEmptyVer : UpgradeEnv :=
  { configResult := Except.ok (some { codeGeneratorConfigItems := [itemEmptyVer] }),
    extensionVersion := "dev", osKind := OsKind.win32,
    download := fun _ => Except.ok "P", md5Hash := fun _ => "h",
    extractOk := true }

/-- The world after a successful install of `itemEmptyVer`. -/
def stateEmptyVer : WorldState :=
  { installedVersion := some "", installDirExists := true,
    tempFiles := [("h.zip", "P")] }

/-- Environment whose only release is `itemNine`; downloads succeed and
verify. -/
def envNine : UpgradeEnv :=
  { configResult := Except.ok (some { codeGeneratorConfigItems := [itemNine] }),
    extensionVersion := "dev", osKind := OsKind.win32,
    download := fun _ => Except.ok "P", md5Hash := fun _ => "h",
    extractOk := true }

/-- The world after a successful install of `itemNine`. -/
def stateNine : WorldState :=
  { installedVersion := some "9.9.9", installDirExists := true,
    tempFiles := [("h.zip", "P")] }

/-- Environment whose download is `"corrupt"`, hashing to `"bad"` while
`"deadbeef"` is expected. -/
def envMis : UpgradeEnv :=
  { configResult := Except.ok (some { codeGeneratorConfigItems := [itemBad] }),
    extensionVersion := "dev", osKind := OsKind.win32,
    download := fun _ => Except.ok "corrupt", md5Hash := fun _ => "bad",
    extractOk := true }

section Lemmas

theorem jsGt_eq_jsLt (x y : JSNum) : jsGt x y = jsLt y x := by
  cases x <;> cases y <;> rfl

theorem jsGt_self (x : JSNum) : jsGt x x = false := by
  cases x <;> simp [jsGt]

theorem jsLt_self (x : JSNum) : jsLt x x = false := by
  cases x <;> simp [jsLt]

theorem cmpAt_self (v : List JSNum) (i : Nat) : cmpAt v v i = none := by
  simp [cmpAt, jsGt_self, jsLt_self]

theorem compareNums_self (v : List JSNum) : compareNums v v = 0 := by
  simp [compareNums, cmpAt_self]

theorem compareVersion_self (s : String) : compareVersion s s = 0 :=
  compareNums_self _

theorem cmpAt_swap (v w : List JSNum) (i : Nat) :
    cmpAt w v i = Option.map (fun r => -r) (cmpAt v w i) := by
  unfold cmpAt
  cases hv : nthNum v i <;> cases hw : nthNum w i <;> simp [jsGt, jsLt]
  split_ifs <;> simp_all
  omega

theorem compareNums_swap (v w : List JSNum) :
    compareNums w v = - compareNums v w := by
  unfold compareNums
  rw [cmpAt_swap v w 0, cmpAt_swap v w 1, cmpAt_swap v w 2]
  cases cmpAt v w 0 <;> cases cmpAt v w 1 <;> cases cmpAt v w 2 <;> simp

theorem compareVersion_swap (s t : String) :
    compareVersion t s = - compareVersion s t :=
  compareNums_swap _ _

theorem cmpAt_cases (v w : List JSNum) (i : Nat) :
    cmpAt v w i = none ∨ cmpAt v w i = some 1 ∨ cmpAt v w i = some (-1) := by
  unfold cmpAt; split_ifs <;> simp

theorem compareNums_range (v w : List JSNum) :
    compareNums v w = -1 ∨ compareNums v w = 0 ∨ compareNums v w = 1 := by
  unfold compareNums
  rcases cmpAt_cases v w 0 with h0 | h0 | h0 <;> rw [h0] <;> try simp
  rcases cmpAt_cases v w 1 with h1 | h1 | h1 <;> rw [h1] <;> try simp
  rcases cmpAt_cases v w 2 with h2 | h2 | h2 <;> rw [h2] <;> simp

theorem isVal_exists {x : JSNum} (h : isVal x = true) : ∃ n, x = JSNum.val n := by
  cases x with
  | nan => simp [isVal] at h
  | val n => exact ⟨n, rfl⟩

theorem cmpAt_val {v w : List JSNum} {i : Nat} {a b : Int}
    (hv : nthNum v i = JSNum.val a) (hw : nthNum w i = JSNum.val b) :
    cmpAt v w i = if b < a then some 1 else if a < b then some (-1) else none := by
  simp [cmpAt, hv, hw, jsGt, jsLt]

theorem compareNums_numeric {v w : List JSNum}
    (hv : numeric3 v = true) (hw : numeric3 w = true) :
    compareNums v w = cmp3 (vals3 v) (vals3 w) := by
  simp only [numeric3, Bool.and_eq_true] at hv hw
  obtain ⟨⟨hv0, hv1⟩, hv2⟩ := hv
  obtain ⟨⟨hw0, hw1⟩, hw2⟩ := hw
  obtain ⟨a0, ha0⟩ := isVal_exists hv0
  obtain ⟨a1, ha1⟩ := isVal_exists hv1
  obtain ⟨a2, ha2⟩ := isVal_exists hv2
  obtain ⟨b0, hb0⟩ := isVal_exists hw0
  obtain ⟨b1, hb1⟩ := isVal_exists hw1
  obtain ⟨b2, hb2⟩ := isVal_exists hw2
  rw [compareNums, cmpAt_val ha0 hb0, cmpAt_val ha1 hb1, cmpAt_val ha2 hb2]
  simp only [cmp3, vals3, ha0, ha1, ha2, hb0, hb1, hb2, theVal]
  split_ifs <;> simp

theorem numeric3_tripleNums (a : VersionTriple) :
    numeric3 (tripleNums a) = true := by
  simp [numeric3, tripleNums, nthNum, isVal]

theorem vals3_tripleNums (a : VersionTriple) :
    vals3 (tripleNums a) = ((a.1 : Int), (a.2.1 : Int), (a.2.2 : Int)) := by
  simp [vals3, tripleNums, nthNum, theVal]

theorem compareTriple_eq_cmp3 (a b : VersionTriple) :
    compareTriple a b =
      cmp3 ((a.1 : Int), (a.2.1 : Int), (a.2.2 : Int))
        ((b.1 : Int), (b.2.1 : Int), (b.2.2 : Int)) := by
  rw [compareTriple, compareNums_numeric (numeric3_tripleNums a)
    (numeric3_tripleNums b), vals3_tripleNums, vals3_tripleNums]

theorem cmp3_nonpos (x y : Int × Int × Int) :
    cmp3 x y ≤ 0 ↔
      (x.1 < y.1 ∨ (x.1 = y.1 ∧ (x.2.1 < y.2.1 ∨
        (x.2.1 = y.2.1 ∧ x.2.2 ≤ y.2.2)))) := by
  unfold cmp3; split_ifs <;> omega

theorem cmp3_trans_nonpos {x y z : Int × Int × Int}
    (h1 : cmp3 x y ≤ 0) (h2 : cmp3 y z ≤ 0) : cmp3 x z ≤ 0 := by
  rw [cmp3_nonpos] at h1 h2 ⊢; omega

theorem compareNums_le_trans {u v w : List JSNum} (hu : numeric3 u = true)
    (hv : numeric3 v = true) (hw : numeric3 w = true)
    (h1 : compareNums u v ≤ 0) (h2 : compareNums v w ≤ 0) :
    compareNums u w ≤ 0 := by
  rw [compareNums_numeric hu hv] at h1
  rw [compareNums_numeric hv hw] at h2
  rw [compareNums_numeric hu hw]
  exact cmp3_trans_nonpos h1 h2

theorem compareVersion_range (s t : String) :
    compareVersion s t = -1 ∨ compareVersion s t = 0 ∨ compareVersion s t = 1 :=
  compareNums_range _ _

theorem descBefore_total (x y : CodeGeneratorConfigItem) :
    descBefore x y = true ∨ descBefore y x = true := by
  simp only [descBefore, decide_eq_true_eq]
  have hs := compareVersion_swap x.codeGeneratorVersion y.codeGeneratorVersion
  have hr := compareVersion_range x.codeGeneratorVersion y.codeGeneratorVersion
  omega

theorem descBefore_trans {x y z : CodeGeneratorConfigItem}
    (hx : numericVer x = true) (hy : numericVer y = true)
    (hz : numericVer z = true) (h1 : descBefore x y = true)
    (h2 : descBefore y z = true) : descBefore x z = true := by
  simp only [descBefore, decide_eq_true_eq] at h1 h2 ⊢
  exact compareNums_le_trans hz hy hx h2 h1

theorem descInsert_perm (a : CodeGeneratorConfigItem)
    (l : List CodeGeneratorConfigItem) :
    (descInsert a l).Perm (a :: l) := by
  induction l with
  | nil => exact List.Perm.refl _
  | cons b l ih =>
    simp only [descInsert]
    split_ifs with h
    · exact List.Perm.refl _
    · exact (ih.cons b).trans (List.Perm.swap a b l)

theorem sortDesc_perm (l : List CodeGeneratorConfigItem) :
    (sortDesc l).Perm l := by
  induction l with
  | nil => exact List.Perm.refl _
  | cons a l ih => exact (descInsert_perm a (sortDesc l)).trans (ih.cons a)

theorem mem_sortDesc {x : CodeGeneratorConfigItem}
    {l : List CodeGeneratorConfigItem} : x ∈ sortDesc l ↔ x ∈ l :=
  (sortDesc_perm l).mem_iff

theorem mem_descInsert {x a : CodeGeneratorConfigItem}
    {l : List CodeGeneratorConfigItem} :
    x ∈ descInsert a l ↔ x = a ∨ x ∈ l := by
  rw [(descInsert_perm a l).mem_iff, List.mem_cons]

theorem pairwise_descInsert {a : CodeGeneratorConfigItem}
    {l : List CodeGeneratorConfigItem}
    (hl : l.Pairwise (fun x y => descBefore x y = true))
    (hna : numericVer a = true) (hnl : ∀ x ∈ l, numericVer x = true) :
    (descInsert a l).Pairwise (fun x y => descBefore x y = true) := by
  induction l with
  | nil => simp [descInsert]
  | cons b l ih =>
    simp only [descInsert]
    rcases List.pairwise_cons.mp hl with ⟨hb, hl'⟩
    split_ifs with h
    · refine List.pairwise_cons.mpr ⟨?_, hl⟩
      intro y hy
      rcases List.mem_cons.mp hy with rfl | hy'
      · exact h
      · exact descBefore_trans hna (hnl b (by simp)) (hnl y (by simp [hy']))
          h (hb y hy')
    · refine List.pairwise_cons.mpr ⟨?_, ih hl' (fun x hx => hnl x (by simp [hx]))⟩
      intro y hy
      rcases mem_descInsert.mp hy with rfl | hy'
      · exact (descBefore_total y b).resolve_left (by simpa using h)
      · exact hb y hy'

theorem pairwise_sortDesc {l : List CodeGeneratorConfigItem}
    (hn : ∀ x ∈ l, numericVer x = true) :
    (sortDesc l).Pairwise (fun x y => descBefore x y = true) := by
  induction l with
  | nil => simp [sortDesc]
  | cons a l ih =>
    exact pairwise_descInsert (ih (fun x hx => hn x (by simp [hx])))
      (hn a (by simp))
      (fun x hx => hn x (by simp [mem_sortDesc.mp hx]))

theorem jsGt_nan_left (x : JSNum) : jsGt JSNum.nan x = false := by
  cases x <;> rfl

theorem jsGt_nan_right (x : JSNum) : jsGt x JSNum.nan = false := by
  cases x <;> rfl

theorem jsLt_nan_left (x : JSNum) : jsLt JSNum.nan x = false := by
  cases x <;> rfl

theorem jsLt_nan_right (x : JSNum) : jsLt x JSNum.nan = false := by
  cases x <;> rfl

theorem cmpAt_eq_none_of_eq {v w : List JSNum} {i : Nat}
    (h : nthNum v i = nthNum w i) : cmpAt v w i = none := by
  unfold cmpAt
  rw [h, jsGt_self, jsLt_self]
  simp

theorem nthNum_set_self (v : List JSNum) (i : Nat) (x : JSNum) :
    nthNum (v.set i x) i = x ∨ nthNum (v.set i x) i = JSNum.nan := by
  rcases Nat.lt_or_ge i v.length with hlen | hlen
  · left
    simp [nthNum, List.getElem?_set_eq_of_lt x hlen]
  · right
    rw [List.set_eq_of_length_le hlen]
    simp [nthNum, List.getElem?_eq_none hlen]

theorem nthNum_set_ne (v : List JSNum) {i j : Nat} (x : JSNum) (h : i ≠ j) :
    nthNum (v.set i x) j = nthNum v j := by
  simp [nthNum, List.getElem?_set_ne h]

theorem cmpAt_set_nan {v : List JSNum} (w : List JSNum) {i : Nat}
    (h : nthNum v i = JSNum.nan) (j : Nat) :
    cmpAt (v.set i (JSNum.val 0)) (w.set i (JSNum.val 0)) j = cmpAt v w j := by
  by_cases hij : i = j
  · subst hij
    have hr : cmpAt v w i = none := by
      unfold cmpAt
      rw [h, jsGt_nan_left, jsLt_nan_left]
      simp
    rcases nthNum_set_self v i (JSNum.val 0) with h1 | h1 <;>
      rcases nthNum_set_self w i (JSNum.val 0) with h2 | h2 <;>
      rw [hr] <;>
      unfold cmpAt <;>
      simp [h1, h2, h, jsGt, jsLt, jsGt_nan_left, jsGt_nan_right,
        jsLt_nan_left, jsLt_nan_right]
  · rw [cmpAt, cmpAt, nthNum_set_ne v _ hij, nthNum_set_ne w _ hij]

theorem find?_eq_some_split {α : Type} {p : α → Bool} :
    ∀ {l : List α} {x : α}, l.find? p = some x →
      p x = true ∧ ∃ l1 l2, l = l1 ++ x :: l2 ∧ ∀ y ∈ l1, p y = false := by
  intro l
  induction l with
  | nil => intro x h; simp [List.find?] at h
  | cons a l ih =>
    intro x h
    by_cases ha : p a = true
    · rw [List.find?_cons_of_pos _ ha] at h
      cases h
      exact ⟨ha, [], l, rfl, by simp⟩
    · rw [List.find?_cons_of_neg _ ha] at h
      obtain ⟨hp, l1, l2, rfl, hl1⟩ := ih h
      refine ⟨hp, a :: l1, l2, rfl, ?_⟩
      intro y hy
      rcases List.mem_cons.mp hy with rfl | hy'
      · simpa using ha
      · exact hl1 y hy'

end Lemmas

/-- Claim C5: on version triples, `compareVersion` compares major, then
minor, then patch, in that order, returns on the first differing component
(`-1` or `1`), and returns `0` when all three components are equal — i.e. it
coincides with the comparator written to the specification' s words. -/
theorem compareTriple_refines_spec (a b : VersionTriple) :
    compareTriple a b = compareTripleSpec a b := by
  rw [compareTriple_eq_cmp3]
  simp only [cmp3, compareTripleSpec]
  split_ifs <;> omega

/-- Claim C6: on version triples the comparator is a strict total order:
its value ranges over `{-1, 0, 1}`, it is antisymmetric, reflexive-equal,
and transitive on non-positive results. -/
theorem compareTriple_strict_total_order (a b c : VersionTriple) :
    (compareTriple a b = -1 ∨ compareTriple a b = 0 ∨ compareTriple a b = 1) ∧
    compareTriple a b = - compareTriple b a ∧
    compareTriple a a = 0 ∧
    (compareTriple a b ≤ 0 → compareTriple b c ≤ 0 → compareTriple a c ≤ 0) := by
  refine ⟨compareNums_range _ _, compareNums_swap _ _, compareNums_self _, ?_⟩
  intro h1 h2
  rw [compareTriple_eq_cmp3] at h1 h2 ⊢
  exact cmp3_trans_nonpos h1 h2

/-- Claim C6 witness: the transitivity clause at the concrete triples
`(1,2,3)`, `(1,2,4)`, `(2,0,0)`. -/
theorem compareTriple_strict_total_order_witness :
    compareTriple (1, 2, 3) (2, 0, 0) ≤ 0 :=
  (compareTriple_strict_total_order (1, 2, 3) (1, 2, 4) (2, 0, 0)).2.2.2
    (by decide) (by decide)

/-- Claim C3 counterexample: a non-numeric component does NOT parse as `0`.
`compareVersion("x.0.0", "1.0.0")` is `0` (the `NaN` component ties with
`1`), while `compareVersion("0.0.0", "1.0.0")` is `-1`, so `"x.0.0"` does
not behave as `"0.0.0"` against the counterpart `"1.0.0"`. -/
theorem compareVersion_nonNumeric_cex :
    compareVersion "x.0.0" "1.0.0" = 0 ∧
    compareVersion "0.0.0" "1.0.0" = -1 := by
  exact ⟨by decide, by decide⟩

/-- Claim C3 as amended: a non-numeric component converts to `NaN`, and every
comparison against `NaN` is false, so the position holding it can never
decide the comparison: `compareVersion` behaves exactly as if that position
were replaced by equal numbers (`0`) on BOTH sides — not as if only the
non-numeric component were `0`. -/
theorem compareVersion_nan_component (s t : String) (i : Nat)
    (h : nthNum (splitVersion s) i = JSNum.nan) :
    compareVersion s t =
      compareNums ((splitVersion s).set i (JSNum.val 0))
        ((splitVersion t).set i (JSNum.val 0)) := by
  unfold compareVersion compareNums
  rw [cmpAt_set_nan (splitVersion t) h 0, cmpAt_set_nan (splitVersion t) h 1,
    cmpAt_set_nan (splitVersion t) h 2]

/-- Claim C3 witness: the amended statement at `s = "x.0.0"`, `t = "1.0.0"`,
position `0`. -/
theorem compareVersion_nan_component_witness :
    nthNum (splitVersion "x.0.0") 0 = JSNum.nan ∧
    compareVersion "x.0.0" "1.0.0" =
      compareNums ((splitVersion "x.0.0").set 0 (JSNum.val 0))
        ((splitVersion "1.0.0").set 0 (JSNum.val 0)) :=
  ⟨by decide, compareVersion_nan_component "x.0.0" "1.0.0" 0 (by decide)⟩

/-- Claim C10: the comparator inspects only the first three dot-separated
components; two version strings that agree on their first three components
compare equal, whatever follows. -/
theorem compareVersion_first_three (s t : String)
    (h : (splitOnDot s.data).take 3 = (splitOnDot t.data).take 3) :
    compareVersion s t = 0 := by
  have key : ∀ j, j < 3 →
      nthNum (splitVersion s) j = nthNum (splitVersion t) j := by
    intro j hj
    unfold nthNum splitVersion
    rw [List.getElem?_map, List.getElem?_map,
      ← List.getElem?_take_of_lt (l := splitOnDot s.data) hj,
      ← List.getElem?_take_of_lt (l := splitOnDot t.data) hj, h]
  unfold compareVersion compareNums
  rw [cmpAt_eq_none_of_eq (key 0 (by omega)),
    cmpAt_eq_none_of_eq (key 1 (by omega)),
    cmpAt_eq_none_of_eq (key 2 (by omega))]

/-- Claim C10 witness: `"1.2.3.4"` and `"1.2.3.9"` compare equal. -/
theorem compareVersion_first_three_witness :
    compareVersion "1.2.3.4" "1.2.3.9" = 0 :=
  compareVersion_first_three "1.2.3.4" "1.2.3.9" (by decide)

/-- Claim C4: for a release host (`isPrerelease` false), `selectTarget` works
on a descending-sorted permutation `S` of the candidates; it never returns a
candidate whose `iotWorkbenchMinimalVersion` is greater than the host
version, and the returned candidate is the first of `S` satisfying the host
gate (every candidate before it fails the gate); when it returns `none`, no
candidate satisfies the gate.  (The sortedness of `S` is stated for
candidate lists with numeric version strings, where descending order is
well defined.) -/
theorem selectTarget_release_gate (items : List CodeGeneratorConfigItem)
    (host : String) :
    ∃ S : List CodeGeneratorConfigItem, S.Perm items ∧
      ((∀ x ∈ items, numericVer x = true) → S.Pairwise (fun x y =>
        compareVersion y.codeGeneratorVersion x.codeGeneratorVersion ≤ 0)) ∧
      (∀ c, selectTarget items host false = some c →
        compareVersion c.iotWorkbenchMinimalVersion host ≠ 1 ∧
        0 ≤ compareVersion host c.iotWorkbenchMinimalVersion ∧
        ∃ l1 l2, S = l1 ++ c :: l2 ∧
          ∀ d ∈ l1, compareVersion host d.iotWorkbenchMinimalVersion < 0) ∧
      (selectTarget items host false = none →
        ∀ d ∈ items, compareVersion host d.iotWorkbenchMinimalVersion < 0) := by
  refine ⟨sortDesc items, sortDesc_perm items, ?_, ?_, ?_⟩
  · intro hn
    exact (pairwise_sortDesc hn).imp fun h => by simpa [descBefore] using h
  · intro c hc
    have hc' : (sortDesc items).find?
        (fun it => decide
          (0 ≤ compareVersion host it.iotWorkbenchMinimalVersion)) = some c := by
      simpa [selectTarget] using hc
    obtain ⟨hp, l1, l2, hsplit, hl1⟩ := find?_eq_some_split hc'
    have hge : 0 ≤ compareVersion host c.iotWorkbenchMinimalVersion :=
      of_decide_eq_true hp
    have hs := compareVersion_swap host c.iotWorkbenchMinimalVersion
    refine ⟨by omega, hge, l1, l2, hsplit, ?_⟩
    intro d hd
    have hfail := hl1 d hd
    simp only [decide_eq_false_iff_not] at hfail
    omega
  · intro hnone d hd
    have hall : ∀ x ∈ sortDesc items,
        ¬ (decide (0 ≤ compareVersion host x.iotWorkbenchMinimalVersion)
            = true) :=
      List.find?_eq_none.mp (by simpa [selectTarget] using hnone)
    have hx := hall d (mem_sortDesc.mpr hd)
    simp only [decide_eq_true_eq] at hx
    omega

/-- Claim C4 witness: the specification' s scenario — candidates `1.3.0`
(min host `1.0.0`) and `1.4.0` (min host `9.9.9`), host `1.5.0`: `1.3.0` is
selected and satisfies the gate. -/
theorem selectTarget_release_gate_witness :
    selectTarget [cand130, cand140] "1.5.0" false = some cand130 ∧
    compareVersion cand130.iotWorkbenchMinimalVersion "1.5.0" ≠ 1 ∧
    0 ≤ compareVersion "1.5.0" cand130.iotWorkbenchMinimalVersion := by
  obtain ⟨S, -, -, hsome, -⟩ :=
    selectTarget_release_gate [cand130, cand140] "1.5.0"
  have hsel : selectTarget [cand130, cand140] "1.5.0" false = some cand130 :=
    by decide
  obtain ⟨h1, h2, -⟩ := hsome cand130 hsel
  exact ⟨hsel, h1, h2⟩

/-- Claim C7: for a prerelease host, `selectTarget` on a non-empty candidate
list returns a highest-versioned candidate, and the host version plays no
role (the same candidate is returned for any host version). -/
theorem selectTarget_prerelease_max (items : List CodeGeneratorConfigItem)
    (host host2 : String) (hne : items ≠ []) :
    ∃ c, selectTarget items host true = some c ∧ c ∈ items ∧
      selectTarget items host2 true = some c ∧
      ((∀ x ∈ items, numericVer x = true) → ∀ d ∈ items,
        compareVersion d.codeGeneratorVersion c.codeGeneratorVersion ≤ 0) := by
  rcases hs : sortDesc items with _ | ⟨c, rest⟩
  · exfalso
    apply hne
    have hperm := sortDesc_perm items
    rw [hs] at hperm
    exact (hperm.symm).eq_nil
  · refine ⟨c, by simp [selectTarget, hs], ?_, by simp [selectTarget, hs], ?_⟩
    · exact mem_sortDesc.mp (hs ▸ List.mem_cons_self c rest)
    · intro hn d hd
      have hd' : d ∈ sortDesc items := mem_sortDesc.mpr hd
      rw [hs] at hd'
      rcases List.mem_cons.mp hd' with rfl | hd''
      · simp [compareVersion_self]
      · have hp := pairwise_sortDesc hn
        rw [hs] at hp
        have := (List.pairwise_cons.mp hp).1 d hd''
        simpa [descBefore] using this

/-- Claim C7 witness: candidates `1.3.0` and `1.4.0`, two unrelated host
versions: `1.4.0` is returned for both, and it is maximal. -/
theorem selectTarget_prerelease_max_witness :
    ∃ c, selectTarget [cand130, cand140] "a" true = some c ∧
      c ∈ [cand130, cand140] ∧
      selectTarget [cand130, cand140] "b" true = some c ∧
      ∀ d ∈ [cand130, cand140],
        compareVersion d.codeGeneratorVersion c.codeGeneratorVersion ≤ 0 := by
  obtain ⟨c, h1, h2, h3, h4⟩ :=
    selectTarget_prerelease_max [cand130, cand140] "a" "b" (by decide)
  exact ⟨c, h1, h2, h3, h4 (by decide)⟩

/-- Claim C8: `selectTarget` on an empty candidate list returns `none` for
every host version and prerelease flag, and when no candidate satisfies the
host gate it returns `none` (the absence of a result is a value, not an
error — the embedding is a total function). -/
theorem selectTarget_none_cases (host : String) (pre : Bool)
    (items : List CodeGeneratorConfigItem)
    (h : ∀ c ∈ items, compareVersion host c.iotWorkbenchMinimalVersion < 0) :
    selectTarget [] host pre = none ∧ selectTarget items host false = none := by
  constructor
  · cases pre <;> simp [selectTarget, sortDesc]
  · have hall : ∀ x ∈ sortDesc items,
        ¬ (decide (0 ≤ compareVersion host x.iotWorkbenchMinimalVersion)
            = true) := by
      intro x hx
      have := h x (mem_sortDesc.mp hx)
      simp only [decide_eq_true_eq]
      omega
    simpa [selectTarget] using List.find?_eq_none.mpr hall

/-- Claim C8 witness: empty list, and a single candidate failing the gate
(minimal host `9.9.9` against host `1.0.0`). -/
theorem selectTarget_none_cases_witness :
    selectTarget [] "1.0.0" false = none ∧
    selectTarget [cand140] "1.0.0" false = none :=
  selectTarget_none_cases "1.0.0" false [cand140] (by decide)

/-- Claim C2: the recorded version is written only on the full-success path,
after extraction: when the completed steps contain the version write, the
run completed download, verify, extract, write in that order and returned
success; every thrown failure (download, hash check, extraction) leaves the
recorded version unchanged and performs no version write; and a changed
recorded version implies the run succeeded. -/
theorem upgradeVersionGuard (env : UpgradeEnv) (s : WorldState) :
    (UpStep.writeVersion ∈ (upgradeCodeGenerator env s).2.2 →
      (upgradeCodeGenerator env s).2.2 =
        [UpStep.download, UpStep.verify, UpStep.extract, UpStep.writeVersion] ∧
      (upgradeCodeGenerator env s).1 = Except.ok true) ∧
    (∀ e, (upgradeCodeGenerator env s).1 = Except.error e →
      (upgradeCodeGenerator env s).2.1.installedVersion = s.installedVersion ∧
      UpStep.writeVersion ∉ (upgradeCodeGenerator env s).2.2) ∧
    ((upgradeCodeGenerator env s).2.1.installedVersion ≠ s.installedVersion →
      (upgradeCodeGenerator env s).1 = Except.ok true) := by
  rcases hc : env.configResult with e | cfgOpt
  · simp [upgradeCodeGenerator, hc]
  · rcases cfgOpt with _ | cfg
    · simp [upgradeCodeGenerator, hc]
    · rcases hsel : selectTarget cfg.codeGeneratorConfigItems
          env.extensionVersion (!isReleaseVersion env.extensionVersion)
        with _ | item
      · simp [upgradeCodeGenerator, hc, hsel]
      · by_cases hneed : needUpgradeCheck s item = true
        · rcases hdl : env.download
              (downloadUrl env.osKind item.codeGeneratorLocation)
            with e | zipData
          · simp [upgradeCodeGenerator, hc, hsel, hneed, hdl]
          · by_cases hhash : env.md5Hash zipData =
                expectedMd5 env.osKind item.codeGeneratorLocation
            · by_cases hex : env.extractOk = true
              · simp [upgradeCodeGenerator, hc, hsel, hneed, hdl, hhash, hex]
              · simp [upgradeCodeGenerator, hc, hsel, hneed, hdl, hhash, hex]
            · simp [upgradeCodeGenerator, hc, hsel, hneed, hdl, hhash]
        · simp [upgradeCodeGenerator, hc, hsel, hneed]

/-- Claim C2 witness: the failure clause at the hash-mismatch environment —
the recorded version is untouched and no version write happened. -/
theorem upgradeVersionGuard_witness :
    (upgradeCodeGenerator envMis sInit).2.1.installedVersion =
      sInit.installedVersion ∧
    UpStep.writeVersion ∉ (upgradeCodeGenerator envMis sInit).2.2 :=
  (upgradeVersionGuard envMis sInit).2.1 UpgradeFailure.integrity (by rfl)

/-- Claim C1 counterexample: in a concrete run whose download hashes to
`"bad"` while `"deadbeef"` is expected, the run does fail on the hash check
and performs no extraction, but the scratch file written for the download is
NOT deleted: starting from a world with no scratch files, the file
`deadbeef.zip` is still present after the failure, refuting the claim' s
"the scratch file written for the download is deleted". -/
theorem upgradeHashMismatch_cex :
    (upgradeCodeGenerator envMis sInit).1 =
      Except.error UpgradeFailure.integrity ∧
    (upgradeCodeGenerator envMis sInit).2.2 = [UpStep.download] ∧
    sInit.tempFiles = [] ∧
    (upgradeCodeGenerator envMis sInit).2.1.tempFiles =
      [("deadbeef.zip", "corrupt")] :=
  ⟨rfl, rfl, rfl, rfl⟩

/-- Claim C1 as amended: on a hash mismatch the run throws the integrity
failure, performs no extraction and no version write, and leaves the
recorded state unchanged except that the scratch file written for the
download remains on disk (the code never deletes it). -/
theorem upgradeHashMismatch (env : UpgradeEnv) (s : WorldState)
    (item : CodeGeneratorConfigItem) (zipData : String)
    (hsel : configTarget env = some item)
    (hneed : needUpgradeCheck s item = true)
    (hdl : env.download (downloadUrl env.osKind item.codeGeneratorLocation) =
      Except.ok zipData)
    (hhash : env.md5Hash zipData ≠
      expectedMd5 env.osKind item.codeGeneratorLocation) :
    upgradeCodeGenerator env s =
      (Except.error UpgradeFailure.integrity,
       { s with
          tempFiles :=
            writeFile s.tempFiles
              (expectedMd5 env.osKind item.codeGeneratorLocation ++ ".zip")
              zipData },
       [UpStep.download]) := by
  rcases hc : env.configResult with e | cfgOpt
  · simp [configTarget, hc] at hsel
  · rcases cfgOpt with _ | cfg
    · simp [configTarget, hc] at hsel
    · have hsel' : selectTarget cfg.codeGeneratorConfigItems
          env.extensionVersion (!isReleaseVersion env.extensionVersion) =
            some item := by
        simpa [configTarget, hc] using hsel
      simp [upgradeCodeGenerator, hc, hsel', hneed, hdl, hhash]

/-- Claim C1 witness: the amended statement at the concrete hash-mismatch
environment. -/
theorem upgradeHashMismatch_witness :
    upgradeCodeGenerator envMis sInit =
      (Except.error UpgradeFailure.integrity,
       { sInit with
          tempFiles :=
            writeFile sInit.tempFiles
              (expectedMd5 envMis.osKind itemBad.codeGeneratorLocation ++
                ".zip")
              "corrupt" },
       [UpStep.download]) :=
  upgradeHashMismatch envMis sInit itemBad "corrupt" (by rfl) (by rfl)
    (by rfl) (by decide)

/-- Claim C9 counterexample: with a remote release whose version string is
empty, a first successful run records the empty string, which is falsy in
the `needUpgrade` check, so the second run against the unchanged
configuration downloads, verifies, extracts and writes again (its step list
is not empty) — refuting "the second call performs no download,
verification, extraction, or version write".  (`InstalledState` does stay
byte-identical.) -/
theorem upgradeIdempotent_cex :
    upgradeCodeGenerator envEmptyVer sInit =
      (Except.ok true, stateEmptyVer,
       [UpStep.download, UpStep.verify, UpStep.extract, UpStep.writeVersion]) ∧
    upgradeCodeGenerator envEmptyVer stateEmptyVer =
      (Except.ok true, stateEmptyVer,
       [UpStep.download, UpStep.verify, UpStep.extract, UpStep.writeVersion]) :=
  ⟨rfl, rfl⟩

/-- Claim C9 as amended: after a first successful run, provided the selected
release' s version string is non-empty, a second run against the unchanged
environment performs no download, verification, extraction or version write
(its completed-step list is empty) and returns the world unchanged. -/
theorem upgradeIdempotent (env : UpgradeEnv) (s s1 : WorldState)
    (tr : List UpStep)
    (h : upgradeCodeGenerator env s = (Except.ok true, s1, tr))
    (hv : ∀ item, configTarget env = some item →
      item.codeGeneratorVersion ≠ "") :
    upgradeCodeGenerator env s1 = (Except.ok true, s1, []) := by
  rcases hc : env.configResult with e | cfgOpt
  · simp [upgradeCodeGenerator, hc] at h
  · rcases cfgOpt with _ | cfg
    · simp [upgradeCodeGenerator, hc] at h
    · rcases hsel : selectTarget cfg.codeGeneratorConfigItems
          env.extensionVersion (!isReleaseVersion env.extensionVersion)
        with _ | item
      · simp [upgradeCodeGenerator, hc, hsel] at h
      · have hne : item.codeGeneratorVersion ≠ "" :=
          hv item (by simp [configTarget, hc, hsel])
        by_cases hneed : needUpgradeCheck s item = true
        · rcases hdl : env.download
              (downloadUrl env.osKind item.codeGeneratorLocation)
            with e | zipData
          · simp [upgradeCodeGenerator, hc, hsel, hneed, hdl] at h
          · by_cases hhash : env.md5Hash zipData =
                expectedMd5 env.osKind item.codeGeneratorLocation
            · by_cases hex : env.extractOk = true
              · simp [upgradeCodeGenerator, hc, hsel, hneed, hdl, hhash, hex,
                  Prod.ext_iff] at h
                obtain ⟨hs1, -⟩ := h
                subst hs1
                simp [upgradeCodeGenerator, hc, hsel, needUpgradeCheck, hne,
                  compareVersion_self]
              · simp [upgradeCodeGenerator, hc, hsel, hneed, hdl, hhash,
                  hex] at h
            · simp [upgradeCodeGenerator, hc, hsel, hneed, hdl, hhash] at h
        · simp [upgradeCodeGenerator, hc, hsel, hneed, Prod.ext_iff] at h
          obtain ⟨hs1, -⟩ := h
          subst hs1
          simp [upgradeCodeGenerator, hc, hsel, hneed]

/-- Claim C9 witness: a successful install of release `9.9.9`, then a second
run that is a no-op. -/
theorem upgradeIdempotent_witness :
    upgradeCodeGenerator envNine stateNine = (Except.ok true, stateNine, []) :=
  upgradeIdempotent envNine sInit stateNine
    [UpStep.download, UpStep.verify, UpStep.extract, UpStep.writeVersion]
    (by rfl)
    (by
      intro item h
      have h2 : (some itemNine : Option CodeGeneratorConfigItem) = some item :=
        h
      injection h2 with h3
      subst h3
      decide)
